import Mathlib

/-!
A shallow embedding of `breeze_client/session_manager.py` (class `SessionManager`)
and proofs of the specification claims about it.

Modelling conventions:
* A `datetime` is modelled as wall-clock seconds since the epoch read as UTC
  (`Nat`), together with a timezone-awareness flag; reinterpreting a naive wall
  clock as UTC (`replace(tzinfo=timezone.utc)`) keeps the seconds and sets the
  flag.  The current time `now` is passed explicitly to every operation that
  calls `datetime.now(timezone.utc)`.
* File contents are lists of characters.  `datetime.isoformat` /
  `datetime.fromisoformat` are modelled by an injective decimal rendering of the
  seconds: all output characters are decimal digits (hence no `|` and no
  whitespace, as in ISO-8601 text), rendering then parsing is the identity, and
  parsing anything that is not a rendered timestamp fails (`ValueError` in the
  source).
* The observable state of a manager plus its backing file is `SMState`:
  file content (`none` = absent), file permission bits, and the two cached
  fields `_session_token` and `_expiry`.
-/

namespace Breeze

/-- The whitespace characters removed by Python `str.strip()` that can occur
here: space, tab, newline, vertical tab, form feed, carriage return. -/
def isPySpace (c : Char) : Bool :=
  c = ' ' || c = '\t' || c = '\n' || c = Char.ofNat 11 || c = Char.ofNat 12 || c = '\r'

/-- Python `content.strip()` on a list of characters. -/
def pyStrip (xs : List Char) : List Char :=
  ((xs.dropWhile isPySpace).reverse.dropWhile isPySpace).reverse

/-- Python `content.split('|', 1)` (after the `'|' in content` guard): split at
the first occurrence of the pipe character. -/
def splitPipe : List Char → List Char × List Char
  | [] => ([], [])
  | c :: cs =>
    if c = '|' then ([], cs)
    else
      let p := splitPipe cs
      (c :: p.1, p.2)

/-- `datetime`: wall-clock seconds since the epoch read as UTC, plus the
timezone-awareness flag (`aware = false` models `tzinfo is None`). -/
structure PyDateTime where
  seconds : Nat
  aware : Bool
deriving DecidableEq, Repr

/-- Decimal digits of `n`, most significant first, with explicit fuel so that
the kernel can evaluate it.  Stands in for the timestamp text produced by
`datetime.isoformat`. -/
def natToDigitsAux : Nat → Nat → List Char
  | 0, _ => []
  | fuel + 1, n =>
    if n = 0 then [] else natToDigitsAux fuel (n / 10) ++ [Nat.digitChar (n % 10)]

/-- Decimal rendering of `n` (the timestamp text of `isoformat`). -/
def natToDigits (n : Nat) : List Char :=
  if n = 0 then ['0'] else natToDigitsAux n n

/-- Numeric value of a big-endian decimal digit string. -/
def digitsVal (xs : List Char) : Nat :=
  xs.foldl (fun acc c => 10 * acc + (c.toNat - 48)) 0

/-- `datetime.fromisoformat` on the timestamp text: succeeds exactly on
non-empty all-digit strings; on anything else the source raises `ValueError`. -/
def parseTimestamp (xs : List Char) : Option Nat :=
  if xs ≠ [] ∧ xs.all Char.isDigit then some (digitsVal xs) else none

/-- The file content written by `save_session`:
`f"{session_token}|{expiry.isoformat()}\n"`. -/
def encodeContent (token : List Char) (expiry : PyDateTime) : List Char :=
  token ++ '|' :: natToDigits expiry.seconds ++ ['\n']

/-- The errors raised by the session manager: `SessionNotFoundError` and
`SessionExpiredError` (both subclass `BreezeTraderError`, so neither is caught
by the `except (ValueError, OSError)` handler in `_load_session`). -/
inductive SessionError where
  | notFound
  | expired
deriving DecidableEq, Repr

/-- Observable state of a `SessionManager` together with its backing file:
`file` is the file content (`none` = file absent), `mode` its permission bits,
`cacheToken` and `cacheExpiry` the fields `_session_token` and `_expiry`. -/
structure SMState where
  file : Option (List Char)
  mode : Option Nat
  cacheToken : Option (List Char)
  cacheExpiry : Option PyDateTime
deriving DecidableEq, Repr

/-- A manager with no backing file and an empty cache. -/
def SMState.init : SMState :=
  { file := none, mode := none, cacheToken := none, cacheExpiry := none }

/-- `clear_session`: unlink the file if it exists and clear both cache fields. -/
def clearSession (_s : SMState) : SMState :=
  SMState.init

/-- Default expiry used by `save_session`:
`datetime(now.year, now.month, now.day, 23, 59, 59, tzinfo=timezone.utc)`,
i.e. 23:59:59 UTC of the current day, in the epoch-seconds model. -/
def endOfDaySeconds (now : Nat) : Nat :=
  86400 * (now / 86400) + 86399

/-- The expiry actually stored by `save_session`: the 23:59:59 default when the
argument is omitted, and a naive value reinterpreted as UTC
(`expiry.replace(tzinfo=timezone.utc)`). -/
def normalizeExpiry (now : Nat) (expiry : Option PyDateTime) : PyDateTime :=
  match expiry with
  | none => { seconds := endOfDaySeconds now, aware := true }
  | some e => if e.aware then e else { seconds := e.seconds, aware := true }

/-- `self.session_file.write_text(content)`: create or truncate the file; a
fresh file is created with the process-default mode bits `defaultMode`, an
existing file keeps its mode. -/
def writeText (defaultMode : Nat) (content : List Char) (s : SMState) : SMState :=
  { s with file := some content, mode := some (s.mode.getD defaultMode) }

/-- `os.chmod(self.session_file, m)`. -/
def chmodFile (m : Nat) (s : SMState) : SMState :=
  { s with mode := some m }

/-- `save_session`: normalize the expiry, write `token|isoformat(expiry)\n`,
chmod to `0o600`, update both cache fields. -/
def saveSession (defaultMode now : Nat) (token : List Char)
    (expiry : Option PyDateTime) (s : SMState) : SMState :=
  let e := normalizeExpiry now expiry
  let s1 := writeText defaultMode (encodeContent token e) s
  let s2 := chmodFile 0o600 s1
  { s2 with cacheToken := some token, cacheExpiry := some e }

/-- `_load_session`: returns the new state and the raised error, if any
(`none` means the load succeeded and both cache fields were updated). -/
def loadAux (now : Nat) (s : SMState) : SMState × Option SessionError :=
  match s.file with
  | none => (s, some .notFound)
  | some raw =>
    let content := pyStrip raw
    if '|' ∈ content then
      let p := splitPipe content
      match parseTimestamp p.2 with
      | none => (clearSession s, some .notFound)
      | some secs =>
        if secs ≤ now then (clearSession s, some .expired)
        else ({ s with cacheToken := some p.1, cacheExpiry := some ⟨secs, true⟩ }, none)
    else (clearSession s, some .notFound)

/-- The pure parse underlying `_load_session`: the `(token, expiry-seconds)`
pair extracted from a file content, or `none` when the content is corrupted
(no pipe, or the part after the first pipe is not a parsable timestamp). -/
def parseContent (raw : List Char) : Option (List Char × Nat) :=
  let content := pyStrip raw
  if '|' ∈ content then
    let p := splitPipe content
    (parseTimestamp p.2).map (fun secs => (p.1, secs))
  else none

/-- `load_session`: run `_load_session`, then return
`(self._session_token, self._expiry)`. -/
def loadSession (now : Nat) (s : SMState) :
    SMState × Except SessionError (List Char × PyDateTime) :=
  match loadAux now s with
  | (s1, some e) => (s1, .error e)
  | (s1, none) =>
    match s1.cacheToken, s1.cacheExpiry with
    | some t, some ex => (s1, .ok (t, ex))
    | _, _ => (s1, .error .notFound)

/-- The final `return now < self._expiry` comparison of `is_valid` (the `none`
branch is unreachable there: it is only evaluated with a populated cache). -/
def isValidCheck (now : Nat) (s1 : SMState) : SMState × Bool :=
  match s1.cacheExpiry with
  | some e => (s1, decide (now < e.seconds))
  | none => (s1, false)

/-- `is_valid`: reload when a cache field is missing, swallowing every error
into `false`; then compare the current time with the cached expiry. -/
def isValid (now : Nat) (s : SMState) : SMState × Bool :=
  if s.cacheToken = none ∨ s.cacheExpiry = none then
    if s.file = none then (s, false)
    else
      match loadAux now s with
      | (s1, some _) => (s1, false)
      | (s1, none) => isValidCheck now s1
  else isValidCheck now s

/-- `time_until_expiry`: seconds remaining, or `none` when `is_valid()` is
false.  Truncated `Nat` subtraction models the source's `max(0, remaining)`. -/
def timeUntilExpiry (now : Nat) (s : SMState) : SMState × Option Nat :=
  match isValid now s with
  | (s1, false) => (s1, none)
  | (s1, true) =>
    match s1.cacheExpiry with
    | some e => (s1, some (e.seconds - now))
    | none => (s1, none)

/-- `get_expiry_time`: reload when no expiry is cached and the file exists,
returning `none` if that reload fails. -/
def getExpiryTime (now : Nat) (s : SMState) : SMState × Option PyDateTime :=
  if s.cacheExpiry = none ∧ s.file ≠ none then
    match loadAux now s with
    | (s1, some _) => (s1, none)
    | (s1, none) => (s1, s1.cacheExpiry)
  else (s, s.cacheExpiry)

/-- `get_session_token`: load when no token is cached, then the defensive
`is_valid` double-check, then return the cached token. -/
def getSessionToken (now : Nat) (s : SMState) :
    SMState × Except SessionError (List Char) :=
  match (if s.cacheToken = none then loadAux now s else (s, none)) with
  | (s1, some e) => (s1, .error e)
  | (s1, none) =>
    match isValid now s1 with
    | (s2, false) => (s2, .error .expired)
    | (s2, true) =>
      match s2.cacheToken with
      | some t => (s2, .ok t)
      | none => (s2, .error .expired)

/-- The `"Xh Ym"` / `"Ym"` text interpolated into the warning message. -/
def timeStrChars (hours minutes : Nat) : List Char :=
  if 0 < hours then natToDigits hours ++ 'h' :: ' ' :: natToDigits minutes ++ ['m']
  else natToDigits minutes ++ ['m']

/-- The warning text returned by `warn_if_expiring_soon`; the fixed sentence of
the source is abbreviated to its leading words (a punctuation-only difference
with no bearing on any claim). -/
def warningMessage (hours minutes : Nat) : List Char :=
  ("Session expires in ".data) ++ timeStrChars hours minutes

/-- `warn_if_expiring_soon` (the source defaults `warning_minutes` to 60).
For an integer threshold `w`, `⌊r / 60⌋ < w` iff `r / 60 < w` over the reals,
so `Nat` division faithfully models the source's float comparison; likewise
`int(rm // 60)` and `int(rm % 60)` for `rm = r / 60` equal `(r / 60) / 60`
and `(r / 60) % 60` over `Nat`. -/
def warnIfExpiringSoon (now warningMinutes : Nat) (s : SMState) :
    SMState × Option (List Char) :=
  match timeUntilExpiry now s with
  | (s1, none) => (s1, none)
  | (s1, some remainingSeconds) =>
    let remainingMinutes := remainingSeconds / 60
    if remainingMinutes < warningMinutes then
      (s1, some (warningMessage (remainingMinutes / 60) (remainingMinutes % 60)))
    else (s1, none)

/-- `SessionManager.__init__` over an existing backing file: attempt a load,
silently ignoring `SessionExpiredError` and `SessionNotFoundError`. -/
def initManager (now : Nat) (file : Option (List Char)) (mode : Option Nat) : SMState :=
  let s : SMState := { file := file, mode := mode, cacheToken := none, cacheExpiry := none }
  match file with
  | none => s
  | some _ => (loadAux now s).1

/-! ### Helper lemmas: the timestamp codec -/

lemma digitChar_good (d : Nat) (hd : d < 10) :
    (Nat.digitChar d).isDigit = true ∧ isPySpace (Nat.digitChar d) = false ∧
      Nat.digitChar d ≠ '|' ∧ (Nat.digitChar d).toNat = 48 + d := by
  interval_cases d <;> exact ⟨by decide, by decide, by decide, by decide⟩

lemma natToDigitsAux_mem (fuel : Nat) :
    ∀ n c, c ∈ natToDigitsAux fuel n → ∃ d, d < 10 ∧ c = Nat.digitChar d := by
  induction fuel with
  | zero => intro n c hc; simp [natToDigitsAux] at hc
  | succ fuel ih =>
    intro n c hc
    unfold natToDigitsAux at hc
    by_cases h0 : n = 0
    · simp [h0] at hc
    · rw [if_neg h0, List.mem_append] at hc
      rcases hc with hc | hc
      · exact ih _ c hc
      · refine ⟨n % 10, Nat.mod_lt _ (by norm_num), ?_⟩
        simpa using hc

lemma natToDigits_mem (n : Nat) :
    ∀ c ∈ natToDigits n, ∃ d, d < 10 ∧ c = Nat.digitChar d := by
  intro c hc
  unfold natToDigits at hc
  by_cases h0 : n = 0
  · rw [if_pos h0, List.mem_singleton] at hc
    exact ⟨0, by norm_num, hc⟩
  · rw [if_neg h0] at hc
    exact natToDigitsAux_mem n n c hc

lemma natToDigits_ne_nil (n : Nat) : natToDigits n ≠ [] := by
  unfold natToDigits
  by_cases h0 : n = 0
  · simp [h0]
  · rw [if_neg h0]
    cases n with
    | zero => exact absurd rfl h0
    | succ m => unfold natToDigitsAux; simp [h0]

lemma foldl_natToDigitsAux (fuel : Nat) :
    ∀ n acc, n ≤ fuel →
      (natToDigitsAux fuel n).foldl (fun acc c => 10 * acc + (c.toNat - 48)) acc
        = acc * 10 ^ (natToDigitsAux fuel n).length + n := by
  induction fuel with
  | zero =>
    intro n acc hn
    interval_cases n
    simp [natToDigitsAux]
  | succ fuel ih =>
    intro n acc hn
    by_cases h0 : n = 0
    · simp [natToDigitsAux, h0]
    · have hdiv : n / 10 ≤ fuel := by
        have : n / 10 < n := Nat.div_lt_self (Nat.pos_of_ne_zero h0) (by norm_num)
        omega
      unfold natToDigitsAux
      rw [if_neg h0, List.foldl_append, ih (n / 10) acc hdiv]
      have hm : (Nat.digitChar (n % 10)).toNat = 48 + n % 10 :=
        (digitChar_good (n % 10) (Nat.mod_lt _ (by norm_num))).2.2.2
      simp only [List.foldl_cons, List.foldl_nil, List.length_append,
        List.length_cons, List.length_nil, hm]
      rw [pow_succ, ← mul_assoc]
      generalize acc * 10 ^ (natToDigitsAux fuel (n / 10)).length = B
      omega

lemma digitsVal_natToDigits (n : Nat) : digitsVal (natToDigits n) = n := by
  unfold digitsVal natToDigits
  by_cases h0 : n = 0
  · simp [h0]
  · rw [if_neg h0]
    simpa using foldl_natToDigitsAux n n 0 le_rfl

lemma natToDigits_all_digit (n : Nat) : (natToDigits n).all Char.isDigit = true := by
  rw [List.all_eq_true]
  intro c hc
  obtain ⟨d, hd, rfl⟩ := natToDigits_mem n c hc
  exact (digitChar_good d hd).1

lemma natToDigits_not_space (n : Nat) :
    ∀ c ∈ natToDigits n, isPySpace c = false := by
  intro c hc
  obtain ⟨d, hd, rfl⟩ := natToDigits_mem n c hc
  exact (digitChar_good d hd).2.1

lemma parseTimestamp_natToDigits (n : Nat) : parseTimestamp (natToDigits n) = some n := by
  unfold parseTimestamp
  rw [if_pos ⟨natToDigits_ne_nil n, natToDigits_all_digit n⟩, digitsVal_natToDigits]

lemma parseTimestamp_of_pipe (xs : List Char) (h : '|' ∈ xs) :
    parseTimestamp xs = none := by
  unfold parseTimestamp
  rw [if_neg]
  rintro ⟨-, hall⟩
  exact absurd (List.all_eq_true.mp hall '|' h) (by decide)

/-! ### Helper lemmas: strings and splitting -/

lemma splitPipe_no_pipe_left (a b : List Char) (ha : '|' ∉ a) :
    splitPipe (a ++ '|' :: b) = (a, b) := by
  induction a with
  | nil => simp [splitPipe]
  | cons c cs ih =>
    have hc : c ≠ '|' := fun h => ha (by simp [h])
    have hcs : '|' ∉ cs := fun h => ha (List.mem_cons_of_mem c h)
    simp [splitPipe, hc, ih hcs]

lemma splitPipe_recover (xs : List Char) (h : '|' ∈ xs) :
    (splitPipe xs).1 ++ '|' :: (splitPipe xs).2 = xs ∧ '|' ∉ (splitPipe xs).1 := by
  induction xs with
  | nil => simp at h
  | cons c cs ih =>
    by_cases hc : c = '|'
    · subst hc; simp [splitPipe]
    · have hcs : '|' ∈ cs := by
        rcases List.mem_cons.mp h with h1 | h1
        · exact absurd h1.symm hc
        · exact h1
      obtain ⟨h1, h2⟩ := ih hcs
      refine ⟨?_, ?_⟩
      · simpa [splitPipe, hc] using h1
      · simp only [splitPipe, if_neg hc, List.mem_cons, not_or]
        exact ⟨fun he => hc he.symm, h2⟩

lemma mem_of_mem_dropWhile (p : Char → Bool) (l : List Char) (x : Char)
    (hx : x ∈ l.dropWhile p) : x ∈ l := by
  induction l with
  | nil => simp [List.dropWhile] at hx
  | cons c cs ih =>
    by_cases hc : p c
    · simp only [List.dropWhile, hc] at hx
      exact List.mem_cons_of_mem c (ih hx)
    · simpa [List.dropWhile, hc] using hx

lemma mem_dropWhile_of_mem (p : Char → Bool) (l : List Char) (x : Char)
    (hx : x ∈ l) (hpx : p x = false) : x ∈ l.dropWhile p := by
  induction l with
  | nil => simp at hx
  | cons c cs ih =>
    by_cases hc : p c
    · simp only [List.dropWhile, hc]
      rcases List.mem_cons.mp hx with h | h
      · rw [h] at hpx; rw [hpx] at hc; exact absurd hc (by simp)
      · exact ih h
    · simpa [List.dropWhile, hc] using hx

lemma dropWhile_eq_self_of_all (p : Char → Bool) (l : List Char)
    (h : ∀ c ∈ l, p c = false) : l.dropWhile p = l := by
  cases l with
  | nil => rfl
  | cons c cs => simp [List.dropWhile, h c (List.mem_cons_self c cs)]

/-- `str.strip()` of a saved file content: the trailing `\n` goes, leading
whitespace of the token goes, and the timestamp digits are untouched. -/
lemma pyStrip_encodeContent (token : List Char) (e : PyDateTime) :
    pyStrip (encodeContent token e) =
      token.dropWhile isPySpace ++ '|' :: natToDigits e.seconds := by
  have hleft : (encodeContent token e).dropWhile isPySpace =
      token.dropWhile isPySpace ++ '|' :: (natToDigits e.seconds ++ ['\n']) := by
    unfold encodeContent
    rw [show token ++ '|' :: natToDigits e.seconds ++ ['\n']
          = token ++ '|' :: (natToDigits e.seconds ++ ['\n']) by simp]
    rw [List.dropWhile_append]
    by_cases hemp : (token.dropWhile isPySpace).isEmpty
    · rw [if_pos hemp, List.isEmpty_iff.mp hemp, List.nil_append,
        List.dropWhile_cons_of_neg (by decide)]
    · rw [if_neg hemp]
  unfold pyStrip
  rw [hleft]
  have hrev : (token.dropWhile isPySpace ++ '|' :: (natToDigits e.seconds ++ ['\n'])).reverse
      = '\n' :: ((natToDigits e.seconds).reverse
          ++ '|' :: (token.dropWhile isPySpace).reverse) := by
    simp
  rw [hrev, List.dropWhile_cons_of_pos (by decide), List.dropWhile_append]
  have hself : (natToDigits e.seconds).reverse.dropWhile isPySpace
      = (natToDigits e.seconds).reverse :=
    dropWhile_eq_self_of_all _ _ (fun c hc =>
      natToDigits_not_space e.seconds c (List.mem_reverse.mp hc))
  rw [hself]
  have hne : ((natToDigits e.seconds).reverse.isEmpty) = false := by
    rw [List.isEmpty_eq_false_iff_exists_mem]
    obtain ⟨c, hc⟩ := List.exists_mem_of_ne_nil _ (natToDigits_ne_nil e.seconds)
    exact ⟨c, List.mem_reverse.mpr hc⟩
  rw [hne]
  simp

/-! ### Helper lemmas: `parseContent` and `_load_session` -/

/-- Reading back a saved content whose token has no pipe recovers the token
(up to stripped leading whitespace) and the exact expiry seconds. -/
lemma parseContent_encode_no_pipe (token : List Char) (e : PyDateTime)
    (h : '|' ∉ token) :
    parseContent (encodeContent token e) =
      some (token.dropWhile isPySpace, e.seconds) := by
  unfold parseContent
  rw [pyStrip_encodeContent]
  have hmem : '|' ∈ token.dropWhile isPySpace ++ '|' :: natToDigits e.seconds := by
    simp
  rw [if_pos hmem]
  have hnp : '|' ∉ token.dropWhile isPySpace :=
    fun hx => h (mem_of_mem_dropWhile _ _ _ hx)
  simp [splitPipe_no_pipe_left _ _ hnp, parseTimestamp_natToDigits]

/-- A token containing the pipe corrupts the record: the split happens at the
token's first pipe, so the timestamp side still contains a pipe and fails. -/
lemma parseContent_encode_pipe (token : List Char) (e : PyDateTime)
    (h : '|' ∈ token) :
    parseContent (encodeContent token e) = none := by
  unfold parseContent
  rw [pyStrip_encodeContent]
  have hmemT : '|' ∈ token.dropWhile isPySpace :=
    mem_dropWhile_of_mem _ _ _ h (by decide)
  have hmem : '|' ∈ token.dropWhile isPySpace ++ '|' :: natToDigits e.seconds := by
    simp
  rw [if_pos hmem]
  obtain ⟨hrec, hnot⟩ := splitPipe_recover _ hmem
  have hcnt := congrArg (List.count '|') hrec
  rw [List.count_append, List.count_append, List.count_cons_self,
    List.count_cons_self] at hcnt
  have hA0 : List.count '|'
      (splitPipe (token.dropWhile isPySpace ++ '|' :: natToDigits e.seconds)).1 = 0 :=
    List.count_eq_zero.mpr hnot
  have hT1 : 0 < List.count '|' (token.dropWhile isPySpace) :=
    List.count_pos_iff.mpr hmemT
  have hB : '|' ∈ (splitPipe
      (token.dropWhile isPySpace ++ '|' :: natToDigits e.seconds)).2 :=
    List.count_pos_iff.mp (by omega)
  simp [parseTimestamp_of_pipe _ hB]

/-- `_load_session` on a present file, expressed through the pure parse. -/
lemma loadAux_file_some (now : Nat) (s : SMState) (raw : List Char)
    (hf : s.file = some raw) :
    loadAux now s =
      match parseContent raw with
      | none => (clearSession s, some .notFound)
      | some (t, secs) =>
        if secs ≤ now then (clearSession s, some .expired)
        else ({ s with cacheToken := some t, cacheExpiry := some ⟨secs, true⟩ }, none) := by
  unfold loadAux parseContent
  rw [hf]
  by_cases hp : '|' ∈ pyStrip raw
  · simp only [hp, if_true]
    cases hts : parseTimestamp (splitPipe (pyStrip raw)).2 with
    | none => simp [hts]
    | some secs => simp [hts]
  · simp [hp]

lemma loadAux_absent (now : Nat) (s : SMState) (hf : s.file = none) :
    loadAux now s = (s, some .notFound) := by
  unfold loadAux
  rw [hf]

lemma loadAux_corrupt (now : Nat) (s : SMState) (raw : List Char)
    (hf : s.file = some raw) (hp : parseContent raw = none) :
    loadAux now s = (SMState.init, some .notFound) := by
  rw [loadAux_file_some now s raw hf, hp]
  rfl

lemma loadAux_expired (now : Nat) (s : SMState) (raw : List Char) (t : List Char)
    (secs : Nat) (hf : s.file = some raw) (hp : parseContent raw = some (t, secs))
    (hexp : secs ≤ now) :
    loadAux now s = (SMState.init, some .expired) := by
  rw [loadAux_file_some now s raw hf, hp]
  simp [hexp, clearSession]

lemma loadAux_ok (now : Nat) (s : SMState) (raw : List Char) (t : List Char)
    (secs : Nat) (hf : s.file = some raw) (hp : parseContent raw = some (t, secs))
    (hfut : now < secs) :
    loadAux now s =
      ({ s with cacheToken := some t, cacheExpiry := some ⟨secs, true⟩ }, none) := by
  rw [loadAux_file_some now s raw hf, hp]
  simp [Nat.not_le.mpr hfut]

/-! ### Helper lemmas: the public operations -/

lemma dropWhile_eq_self_of_head (p : Char → Bool) (l : List Char)
    (h : ∀ c, l.head? = some c → p c = false) : l.dropWhile p = l := by
  cases l with
  | nil => rfl
  | cons c cs => simp [List.dropWhile, h c rfl]

lemma normalizeExpiry_seconds (now : Nat) (e : PyDateTime) :
    (normalizeExpiry now (some e)).seconds = e.seconds := by
  cases e with
  | mk secs aware => cases aware <;> rfl

lemma normalizeExpiry_aware (now : Nat) (e : PyDateTime) :
    normalizeExpiry now (some e) = ⟨e.seconds, true⟩ ∨ normalizeExpiry now (some e) = e := by
  cases e with
  | mk secs aware =>
    cases aware
    · exact Or.inl rfl
    · exact Or.inr rfl

lemma isValidCheck_fst (now : Nat) (s1 : SMState) : (isValidCheck now s1).1 = s1 := by
  unfold isValidCheck
  cases s1.cacheExpiry <;> rfl

lemma isValid_fst_warm (now : Nat) (s : SMState)
    (h : ¬(s.cacheToken = none ∨ s.cacheExpiry = none)) : (isValid now s).1 = s := by
  unfold isValid
  rw [if_neg h]
  exact isValidCheck_fst now s

lemma timeUntilExpiry_fst (now : Nat) (s : SMState) :
    (timeUntilExpiry now s).1 = (isValid now s).1 := by
  unfold timeUntilExpiry
  rcases hv : isValid now s with ⟨s1, b⟩
  cases b
  · rfl
  · cases hq : s1.cacheExpiry <;> simp [hq]

lemma warnIfExpiringSoon_fst (now w : Nat) (s : SMState) :
    (warnIfExpiringSoon now w s).1 = (timeUntilExpiry now s).1 := by
  unfold warnIfExpiringSoon
  rcases ht : timeUntilExpiry now s with ⟨s1, o⟩
  cases o with
  | none => rfl
  | some r =>
    by_cases hlt : r / 60 < w
    · simp [hlt]
    · simp [hlt]

/-! ### Claim C9 -/

/-- C9: after every successful `save_session`, the backing file's permission
bits are exactly `0o600` (owner read/write only), whatever mode the file had or
would have been created with (`defaultMode`). -/
theorem C9_file_mode (defaultMode now : Nat) (token : List Char)
    (oe : Option PyDateTime) (s : SMState) :
    (saveSession defaultMode now token oe s).mode = some 0o600 :=
  rfl

/-! ### Claim C8 -/

/-- The in-memory cache agrees with the on-disk record: either both are absent,
or the file holds exactly the serialization of the cached pair. -/
def cacheAgreesWithDisk (s : SMState) : Prop :=
  (s.cacheToken = none ∧ s.cacheExpiry = none ∧ s.file = none)
  ∨ (∃ t e, s.cacheToken = some t ∧ s.cacheExpiry = some e
      ∧ s.file = some (encodeContent t e))

/-- C8: after every mutating operation the cache agrees with the disk: after
`save_session` both hold the saved pair (the file holds its serialization),
after `clear_session` both are absent. -/
theorem C8_cache_agrees (defaultMode now : Nat) (token : List Char)
    (oe : Option PyDateTime) (s : SMState) :
    cacheAgreesWithDisk (saveSession defaultMode now token oe s)
    ∧ cacheAgreesWithDisk (clearSession s) :=
  ⟨Or.inr ⟨token, normalizeExpiry now oe, rfl, rfl, rfl⟩, Or.inl ⟨rfl, rfl, rfl⟩⟩

/-! ### Claim C7 -/

/-- C7: `save_session(token)` with the expiry omitted persists an expiry of
23:59:59 UTC of the current date (`endOfDaySeconds now` in the epoch-seconds
model), observable afterwards via `get_expiry_time`; and an explicit expiry
lacking timezone information is normalized to UTC (same instant, aware). -/
theorem C7_default_expiry (defaultMode now es : Nat) (token : List Char) (s : SMState) :
    (saveSession defaultMode now token none s).cacheExpiry
        = some ⟨endOfDaySeconds now, true⟩
    ∧ (saveSession defaultMode now token none s).file
        = some (encodeContent token ⟨endOfDaySeconds now, true⟩)
    ∧ (getExpiryTime now (saveSession defaultMode now token none s)).2
        = some ⟨endOfDaySeconds now, true⟩
    ∧ (saveSession defaultMode now token (some ⟨es, false⟩) s).cacheExpiry
        = some ⟨es, true⟩ :=
  ⟨rfl, rfl, rfl, rfl⟩

/-! ### Claim C5 -/

/-- C5: if the on-disk content is corrupted — no `|` delimiter, or the part
after the first `|` is not a parsable timestamp, which is exactly
`parseContent raw = none` — then `load_session` deletes the record and raises
`SessionNotFoundError`, the same error as for an absent record. -/
theorem C5_corrupt_load (now : Nat) (s : SMState) (raw : List Char)
    (hf : s.file = some raw) (hp : parseContent raw = none) :
    (loadSession now s).2 = .error .notFound ∧ (loadSession now s).1.file = none := by
  unfold loadSession
  rw [loadAux_corrupt now s raw hf hp]
  exact ⟨rfl, rfl⟩

/-- Witness for C5 at the concrete content `"gar"` (no pipe). -/
theorem C5_corrupt_load_witness :
    (loadSession 0 ⟨some ['g', 'a', 'r'], some 0o600, none, none⟩).2 = .error .notFound
    ∧ (loadSession 0 ⟨some ['g', 'a', 'r'], some 0o600, none, none⟩).1.file = none :=
  C5_corrupt_load 0 ⟨some ['g', 'a', 'r'], some 0o600, none, none⟩ ['g', 'a', 'r']
    rfl (by decide)

/-! ### Claim C4 -/

/-- C4: if a record exists on disk and its stored expiry is at or before the
current UTC time, `load_session` raises `SessionExpiredError` and deletes the
record; afterwards no record remains on disk, and `is_valid` (at any later
time `now2`) returns `false`. -/
theorem C4_expired_load (now now2 : Nat) (s : SMState) (raw t : List Char)
    (secs : Nat) (hf : s.file = some raw) (hp : parseContent raw = some (t, secs))
    (hexp : secs ≤ now) :
    (loadSession now s).2 = .error .expired
    ∧ (loadSession now s).1.file = none
    ∧ (isValid now2 (loadSession now s).1).2 = false := by
  unfold loadSession
  rw [loadAux_expired now s raw t secs hf hp hexp]
  exact ⟨rfl, rfl, rfl⟩

/-- Witness for C4: record saved with expiry 10, loaded at time 10 (the
boundary: `now ≥ expiry`), `is_valid` probed at time 11. -/
theorem C4_expired_load_witness :
    (loadSession 10 ⟨some (encodeContent ['t'] ⟨10, true⟩), some 0o600,
        some ['t'], some ⟨10, true⟩⟩).2 = .error .expired
    ∧ (loadSession 10 ⟨some (encodeContent ['t'] ⟨10, true⟩), some 0o600,
        some ['t'], some ⟨10, true⟩⟩).1.file = none
    ∧ (isValid 11 (loadSession 10 ⟨some (encodeContent ['t'] ⟨10, true⟩), some 0o600,
        some ['t'], some ⟨10, true⟩⟩).1).2 = false :=
  C4_expired_load 10 11 ⟨some (encodeContent ['t'] ⟨10, true⟩), some 0o600,
      some ['t'], some ⟨10, true⟩⟩ (encodeContent ['t'] ⟨10, true⟩) ['t'] 10
    rfl (by decide) (by decide)

/-! ### Claim C10 -/

/-- C10: for every token containing the `|` delimiter and every future expiry,
`save_session` succeeds (it is total and stores the pair), but the subsequent
`load_session` does not return the saved pair: the split happens at the first
`|`, the remainder fails timestamp parsing, and the load deletes the record
and raises `SessionNotFoundError`. -/
theorem C10_pipe_token_breaks_roundtrip (defaultMode now : Nat) (token : List Char)
    (es : Nat) (s : SMState) (hpipe : '|' ∈ token) (_hfut : now < es) :
    (loadSession now (saveSession defaultMode now token (some ⟨es, true⟩) s)).2
        = .error .notFound
    ∧ (loadSession now (saveSession defaultMode now token (some ⟨es, true⟩) s)).1.file
        = none := by
  have hfile : (saveSession defaultMode now token (some ⟨es, true⟩) s).file
      = some (encodeContent token ⟨es, true⟩) := rfl
  have hp := parseContent_encode_pipe token ⟨es, true⟩ hpipe
  unfold loadSession
  rw [loadAux_corrupt now _ _ hfile hp]
  exact ⟨rfl, rfl⟩

/-- Witness for C10 at token `"x|"` and future expiry 10 saved at time 3. -/
theorem C10_pipe_token_breaks_roundtrip_witness :
    (loadSession 3 (saveSession 0o644 3 ['x', '|'] (some ⟨10, true⟩) SMState.init)).2
        = .error .notFound
    ∧ (loadSession 3 (saveSession 0o644 3 ['x', '|'] (some ⟨10, true⟩) SMState.init)).1.file
        = none :=
  C10_pipe_token_breaks_roundtrip 0o644 3 ['x', '|'] 10 SMState.init
    (by decide) (by decide)

/-! ### Claim C1 -/

/-- C1 counterexample: the claim quantifies over every `(token, expiry)` pair,
but for the token `"a|b"` — which contains the reserved `|` delimiter — with
the future aware expiry 10 saved at time 5, `load_session` raises
`SessionNotFoundError` instead of returning the saved pair. -/
theorem C1_counterexample :
    (loadSession 5 (saveSession 0o644 5 ['a', '|', 'b'] (some ⟨10, true⟩)
        SMState.init)).2 = .error .notFound
    ∧ (5 : Nat) < 10 :=
  ⟨rfl, by decide⟩

/-- C1 (amended): for every token that contains no `|` and does not begin with
a whitespace character, and every expiry strictly in the future, `save_session`
followed by `load_session` returns exactly the token together with the saved
expiry normalized to UTC (identical seconds, timezone-aware) — in particular,
for an already-aware expiry, exactly the saved pair, with second-level
precision preserved. -/
theorem C1_roundtrip (defaultMode now : Nat) (token : List Char) (e : PyDateTime)
    (s : SMState) (hpipe : '|' ∉ token)
    (hhead : ∀ c, token.head? = some c → isPySpace c = false)
    (hfut : now < e.seconds) :
    (loadSession now (saveSession defaultMode now token (some e) s)).2
      = .ok (token, ⟨e.seconds, true⟩) := by
  have hfile : (saveSession defaultMode now token (some e) s).file
      = some (encodeContent token (normalizeExpiry now (some e))) := rfl
  have hparse := parseContent_encode_no_pipe token (normalizeExpiry now (some e)) hpipe
  rw [dropWhile_eq_self_of_head _ _ hhead, normalizeExpiry_seconds] at hparse
  unfold loadSession
  rw [loadAux_ok now _ _ token e.seconds hfile hparse hfut]

/-- Witness for C1 (amended) at token `"ab"`, aware expiry 10, time 5. -/
theorem C1_roundtrip_witness :
    (loadSession 5 (saveSession 0o644 5 ['a', 'b'] (some ⟨10, true⟩) SMState.init)).2
      = .ok (['a', 'b'], ⟨10, true⟩) :=
  C1_roundtrip 0o644 5 ['a', 'b'] ⟨10, true⟩ SMState.init (by decide)
    (fun c hc => by injection hc with h; rw [← h]; decide) (by decide)

/-! ### Claim C2 -/

/-- C2 counterexample: with a warm cache `is_valid` never touches the disk.
After saving token `"t"` with expiry 10 at time 5 (same process, so the cache
is populated), probing `is_valid` at time 20 — when the stored record is
expired (10 ≤ 20) — returns `false` but leaves the expired record on disk,
contradicting `Expired → Absent` on every read. -/
theorem C2_counterexample :
    (10 : Nat) ≤ 20
    ∧ parseContent (encodeContent ['t'] ⟨10, true⟩) = some (['t'], 10)
    ∧ (isValid 20 (saveSession 0o644 5 ['t'] (some ⟨10, true⟩) SMState.init)).2 = false
    ∧ (isValid 20 (saveSession 0o644 5 ['t'] (some ⟨10, true⟩) SMState.init)).1.file
        = some (encodeContent ['t'] ⟨10, true⟩) :=
  ⟨by decide, by decide, rfl, rfl⟩

/-- C2 (amended): the self-cleaning deletion of an expired record happens on
every read that actually reloads from disk: `load_session` always reloads, and
`is_valid`, `time_until_expiry`, `get_expiry_time` and `get_session_token`
reload when the in-memory cache is empty (as in a fresh process); each of the
five then deletes the expired on-disk record.  With a warm cache the non-load
reads do not touch the disk (see the counterexample). -/
theorem C2_cold_reads_self_clean (now : Nat) (s : SMState) (raw t : List Char)
    (secs : Nat) (hct : s.cacheToken = none) (hce : s.cacheExpiry = none)
    (hf : s.file = some raw) (hp : parseContent raw = some (t, secs))
    (hexp : secs ≤ now) :
    (loadSession now s).1.file = none
    ∧ (isValid now s).1.file = none
    ∧ (timeUntilExpiry now s).1.file = none
    ∧ (getExpiryTime now s).1.file = none
    ∧ (getSessionToken now s).1.file = none := by
  have hload : loadAux now s = (SMState.init, some .expired) :=
    loadAux_expired now s raw t secs hf hp hexp
  have hfne : ¬ s.file = none := by
    rw [hf]; exact fun h => Option.noConfusion h
  have hiv : isValid now s = (SMState.init, false) := by
    unfold isValid
    rw [if_pos (Or.inl hct), if_neg hfne, hload]
  refine ⟨?_, ?_, ?_, ?_, ?_⟩
  · unfold loadSession
    rw [hload]
    rfl
  · rw [hiv]
    rfl
  · unfold timeUntilExpiry
    rw [hiv]
    rfl
  · unfold getExpiryTime
    rw [if_pos ⟨hce, hfne⟩, hload]
    rfl
  · unfold getSessionToken
    rw [if_pos hct, hload]
    rfl

/-- Witness for C2 (amended): a fresh process (empty cache) over the record
`"t|10"` read at time 20. -/
theorem C2_cold_reads_self_clean_witness :
    (loadSession 20 ⟨some (encodeContent ['t'] ⟨10, true⟩), some 0o600, none, none⟩).1.file = none
    ∧ (isValid 20 ⟨some (encodeContent ['t'] ⟨10, true⟩), some 0o600, none, none⟩).1.file = none
    ∧ (timeUntilExpiry 20 ⟨some (encodeContent ['t'] ⟨10, true⟩), some 0o600, none, none⟩).1.file = none
    ∧ (getExpiryTime 20 ⟨some (encodeContent ['t'] ⟨10, true⟩), some 0o600, none, none⟩).1.file = none
    ∧ (getSessionToken 20 ⟨some (encodeContent ['t'] ⟨10, true⟩), some 0o600, none, none⟩).1.file = none :=
  C2_cold_reads_self_clean 20
    ⟨some (encodeContent ['t'] ⟨10, true⟩), some 0o600, none, none⟩
    (encodeContent ['t'] ⟨10, true⟩) ['t'] 10 rfl rfl rfl (by decide) (by decide)

/-! ### Claim C3 -/

/-- C3 counterexample: `warn_if_expiring_soon` is not free of side effects: on
a cold cache over an expired record (saved with expiry 10, probed at time 20 in
a fresh process) the implicit load inside `time_until_expiry` deletes the
on-disk record. -/
theorem C3_counterexample :
    (warnIfExpiringSoon 20 60
        ⟨some (encodeContent ['t'] ⟨10, true⟩), some 0o600, none, none⟩).1.file = none
    ∧ (⟨some (encodeContent ['t'] ⟨10, true⟩), some 0o600, none, none⟩ : SMState).file
        ≠ none :=
  ⟨rfl, by decide⟩

/-- C3 (amended): `warn_if_expiring_soon(threshold)` returns a warning message
iff `time_until_expiry()` is non-absent and, in minutes, less than the
threshold; and it performs no mutation beyond the implicit load inside
`time_until_expiry`: its final state is exactly the state `time_until_expiry`
leaves, and with a warm cache (both fields cached) the state is unchanged.  On
a cold cache the implicit load may populate the cache or delete an expired or
corrupted record (see the counterexample). -/
theorem C3_warn_characterization (now w : Nat) (s : SMState) :
    ((warnIfExpiringSoon now w s).2.isSome = true ↔
      (∃ r, (timeUntilExpiry now s).2 = some r ∧ r / 60 < w))
    ∧ (warnIfExpiringSoon now w s).1 = (timeUntilExpiry now s).1
    ∧ (s.cacheToken ≠ none ∧ s.cacheExpiry ≠ none →
        (warnIfExpiringSoon now w s).1 = s) := by
  refine ⟨?_, warnIfExpiringSoon_fst now w s, ?_⟩
  · unfold warnIfExpiringSoon
    rcases ht : timeUntilExpiry now s with ⟨s1, o⟩
    cases o with
    | none => simp
    | some r =>
      by_cases hlt : r / 60 < w
      · simp [hlt]
      · simp [hlt]
  · intro ⟨hct, hce⟩
    rw [warnIfExpiringSoon_fst, timeUntilExpiry_fst]
    refine isValid_fst_warm now s ?_
    rintro (h | h)
    · exact hct h
    · exact hce h

/-- Witness for C3 (amended): warm cache, expiry 100 at time 5 (95 seconds
remain, about 1 minute, below the 60-minute threshold): the state is unchanged
and a warning is returned. -/
theorem C3_warn_characterization_witness :
    (warnIfExpiringSoon 5 60 (saveSession 0o644 5 ['t'] (some ⟨100, true⟩) SMState.init)).1
        = saveSession 0o644 5 ['t'] (some ⟨100, true⟩) SMState.init
    ∧ (warnIfExpiringSoon 5 60 (saveSession 0o644 5 ['t'] (some ⟨100, true⟩) SMState.init)).2.isSome
        = true :=
  ⟨(C3_warn_characterization 5 60
      (saveSession 0o644 5 ['t'] (some ⟨100, true⟩) SMState.init)).2.2
      ⟨by decide, by decide⟩,
   (C3_warn_characterization 5 60
      (saveSession 0o644 5 ['t'] (some ⟨100, true⟩) SMState.init)).1.mpr
      ⟨95, by decide, by decide⟩⟩

/-! ### Claim C6 -/

/-- The on-disk record exists, parses, and its stored expiry is strictly after
`now`. -/
def recordValidOnDisk (now : Nat) (s : SMState) : Prop :=
  ∃ raw t secs, s.file = some raw ∧ parseContent raw = some (t, secs) ∧ now < secs

/-- C6 counterexample: `is_valid` can return `true` on a corrupted record.
After saving the pipe-containing token `"a|b"` (future expiry 10, time 5) the
warm cache answers `true`, yet the on-disk record is corrupted — it parses to
nothing — so no valid record exists on disk, where the claim requires `false`
for the corrupted failure mode. -/
theorem C6_counterexample :
    (isValid 5 (saveSession 0o644 5 ['a', '|', 'b'] (some ⟨10, true⟩) SMState.init)).2
        = true
    ∧ ¬ recordValidOnDisk 5
        (saveSession 0o644 5 ['a', '|', 'b'] (some ⟨10, true⟩) SMState.init) := by
  constructor
  · rfl
  · rintro ⟨raw, t, secs, hraw, hp, -⟩
    have hre : some (encodeContent ['a', '|', 'b'] ⟨10, true⟩) = some raw := hraw
    have hr : raw = encodeContent ['a', '|', 'b'] ⟨10, true⟩ := by
      injection hre with h
      exact h.symm
    rw [hr, parseContent_encode_pipe ['a', '|', 'b'] ⟨10, true⟩ (by decide)] at hp
    exact Option.noConfusion hp

/-- C6 (amended): `is_valid` never raises (every error of the reload is
swallowed into `false`), and it returns `true` iff either both cache fields
are present and `now` is strictly before the cached expiry (the disk is not
consulted), or a cache field is missing and the on-disk record exists, parses,
and `now` is strictly before its stored expiry — so in the reload case every
failure mode (absent, expired, corrupted) yields `false`. -/
theorem C6_is_valid_characterization (now : Nat) (s : SMState) :
    (isValid now s).2 = true ↔
      ((∃ t e, s.cacheToken = some t ∧ s.cacheExpiry = some e ∧ now < e.seconds)
        ∨ ((s.cacheToken = none ∨ s.cacheExpiry = none) ∧ recordValidOnDisk now s)) := by
  by_cases h : s.cacheToken = none ∨ s.cacheExpiry = none
  · unfold isValid
    rw [if_pos h]
    by_cases hfile : s.file = none
    · rw [if_pos hfile]
      constructor
      · intro hx
        exact absurd hx (by simp)
      · rintro (⟨t, e, ht, he, -⟩ | ⟨-, raw, t, secs, hraw, -, -⟩)
        · rcases h with h | h
          · rw [h] at ht; exact Option.noConfusion ht
          · rw [h] at he; exact Option.noConfusion he
        · rw [hfile] at hraw; exact Option.noConfusion hraw
    · rw [if_neg hfile]
      obtain ⟨raw, hraw⟩ : ∃ raw, s.file = some raw := by
        cases hq : s.file with
        | none => exact absurd hq hfile
        | some r => exact ⟨r, rfl⟩
      cases hp : parseContent raw with
      | none =>
        rw [loadAux_corrupt now s raw hraw hp]
        constructor
        · intro hx
          exact absurd hx (by simp)
        · rintro (⟨t, e, ht, he, -⟩ | ⟨-, raw2, t, secs, hraw2, hp2, -⟩)
          · rcases h with h | h
            · rw [h] at ht; exact Option.noConfusion ht
            · rw [h] at he; exact Option.noConfusion he
          · rw [hraw] at hraw2
            injection hraw2 with hh
            rw [← hh, hp] at hp2
            exact Option.noConfusion hp2
      | some p =>
        rcases p with ⟨t0, secs0⟩
        by_cases hexp : secs0 ≤ now
        · rw [loadAux_expired now s raw t0 secs0 hraw hp hexp]
          constructor
          · intro hx
            exact absurd hx (by simp)
          · rintro (⟨t, e, ht, he, -⟩ | ⟨-, raw2, t, secs, hraw2, hp2, hlt⟩)
            · rcases h with h | h
              · rw [h] at ht; exact Option.noConfusion ht
              · rw [h] at he; exact Option.noConfusion he
            · rw [hraw] at hraw2
              injection hraw2 with hh
              rw [← hh, hp] at hp2
              injection hp2 with hh2
              have h1 : secs0 = secs := congrArg Prod.snd hh2
              omega
        · have hfut : now < secs0 := Nat.not_le.mp hexp
          rw [loadAux_ok now s raw t0 secs0 hraw hp hfut]
          show decide (now < secs0) = true ↔ _
          constructor
          · intro _
            exact Or.inr ⟨h, raw, t0, secs0, hraw, hp, hfut⟩
          · intro _
            exact decide_eq_true hfut
  · unfold isValid
    rw [if_neg h]
    push_neg at h
    obtain ⟨hct, hce⟩ := h
    obtain ⟨t, ht⟩ := Option.ne_none_iff_exists'.mp hct
    obtain ⟨e, he⟩ := Option.ne_none_iff_exists'.mp hce
    unfold isValidCheck
    rw [he]
    show decide (now < e.seconds) = true ↔ _
    constructor
    · intro hx
      exact Or.inl ⟨t, e, ht, rfl, of_decide_eq_true hx⟩
    · rintro (⟨t2, e2, ht2, he2, hlt⟩ | ⟨hor, -⟩)
      · injection he2 with hh
        rw [hh]
        exact decide_eq_true hlt
      · rcases hor with hor | hor
        · rw [hor] at ht; exact Option.noConfusion ht
        · exact Option.noConfusion hor

end Breeze
